import Mathlib

/-!
Verification of the Kurento `WebRtcPeerCore` negotiation core.

Shallow embedding of the negotiation / ICE-candidate logic of
`src/WebRtcPeerCore.js` (kurento-utils-js), together with theorems settling
the spec claims about it.

Conventions:
* JavaScript `null`/`undefined` values are modelled with `Option`.
* An ICE candidate object is abstracted to a `Nat` identifier (the code never
  inspects candidates, it only queues and forwards them).
* The external `RTCPeerConnection` collaborator (the `wrtc` library) is
  modelled with the standard WebRTC behaviour the spec assumes in §6:
  operations on a connection whose `connectionState` is `"closed"` fail with
  an `InvalidStateError`, synchronously for `addTransceiver` and transceiver
  `direction` assignment, as a promise rejection for `createOffer`,
  `createAnswer`, `setLocalDescription` and `setRemoteDescription`.
-/

namespace KurentoUtils

/-- An ICE candidate, abstracted to an identifier. -/
abbrev Candidate := Nat

/-- The candidate-queue state owned by `WebRtcPeerCore`:
`#candidategatheringdone` (initially `undefined`, i.e. falsy) and
`#candidatesQueueOut` (initially `[]`).  A queue entry is the value pushed by
`#onIcecandidate`: either a candidate object or the terminal `null`. -/
structure IceState where
  gatheringDone : Bool
  queue : List (Option Candidate)
deriving DecidableEq, Repr

/-- An event emitted by `#onIcecandidate` through the `EventEmitter`. -/
inductive IceEmit where
  | icecandidate (c : Candidate)
  | candidategatheringdone
deriving DecidableEq, Repr

/-- Handler `#onIcecandidate` (WebRtcPeerCore.js lines 694-715).  `hasListener` is the
value of `listenerCount('icecandidate') || listenerCount('candidategatheringdone')`,
i.e. whether at least one listener is attached to either event.  The incoming
`candidate` is `none` for the terminal null candidate.  Returns the new state
and the events emitted. -/
def onIcecandidate (hasListener : Bool) (st : IceState) (candidate : Option Candidate) :
    IceState × List IceEmit :=
  if hasListener then
    match candidate with
    | some c => ({ st with gatheringDone := false }, [IceEmit.icecandidate c])
    | none =>
      if st.gatheringDone then (st, [])
      else ({ st with gatheringDone := true }, [IceEmit.candidategatheringdone])
  else
    if st.gatheringDone then (st, [])
    else ({ gatheringDone := candidate.isNone, queue := st.queue ++ [candidate] }, [])

/-- The replay loop of `#onNewListener`:
`while ((candidate = this.#candidatesQueueOut.shift())) if (!candidate === iscandidategatheringdone) listener(candidate)`.
The loop stops as soon as `shift()` yields a falsy value: `undefined` on an
empty queue, or the queued terminal `null` (which is consumed but not
delivered).  Returns the entries passed to `listener` and the remaining queue. -/
def drainQueueF (iscgd : Bool) : List (Option Candidate) →
    List (Option Candidate) × List (Option Candidate)
  | [] => ([], [])
  | cand :: rest =>
    if cand.isSome then
      let (d, q) := drainQueueF iscgd rest
      ((if (!cand.isSome) == iscgd then [cand] else []) ++ d, q)
    else ([], rest)

/-- Handler `#onNewListener` (WebRtcPeerCore.js lines 718-727), invoked by the
`newListener` event with the event name being listened to.  Mirrors the guard
`if (iscandidategatheringdone && event !== 'icecandidate') return` and then
the replay loop.  Returns the new state and the entries delivered to the new
listener. -/
def onNewListener (event : String) (st : IceState) :
    IceState × List (Option Candidate) :=
  let iscgd := event == "candidategatheringdone"
  if iscgd && event != "icecandidate" then (st, [])
  else
    let (delivered, rest) := drainQueueF iscgd st.queue
    ({ st with queue := rest }, delivered)

/-- Process a sequence of ICE candidate events with a fixed listener
situation, collecting every emitted event in order. -/
def runIce (hasListener : Bool) : IceState → List (Option Candidate) →
    IceState × List IceEmit
  | st, [] => (st, [])
  | st, ev :: evs =>
    let (st1, out1) := onIcecandidate hasListener st ev
    let (st2, out2) := runIce hasListener st1 evs
    (st2, out1 ++ out2)

/-! ## SDP negotiation: peer-connection model and the wrapper methods -/

/-- A media kind (`track.kind` in JS: `"audio"` or `"video"`). -/
inductive Kind where
  | audio | video
deriving DecidableEq, Repr

/-- A transceiver direction. -/
inductive Direction where
  | sendrecv | sendonly | recvonly | inactive
deriving DecidableEq, Repr

/-- Values of `RTCPeerConnection.connectionState`. -/
inductive ConnState where
  | new | connecting | connected | disconnected | failed | closed
deriving DecidableEq, Repr

/-- A JavaScript error surfaced by the wrapper or its collaborator:
an `Error` with a message, the collaborator's `InvalidStateError`, or a
`TypeError` (property access on `undefined`). -/
inductive JsErr where
  | error (msg : String)
  | invalidStateError
  | typeError
deriving DecidableEq, Repr

/-- An `RTCSessionDescription`: a type tag (`"offer"`/`"answer"`) and the SDP
text. -/
structure SessionDescription where
  type : String
  sdp : String
deriving DecidableEq, Repr

/-- A transceiver of the underlying connection. -/
structure Transceiver where
  kind : Kind
  direction : Direction
deriving DecidableEq, Repr

/-- A `MediaStreamTrack` as far as the SDP mangling is concerned: its `id`
and `kind`. -/
structure MediaTrack where
  id : String
  kind : Kind
deriving DecidableEq, Repr

/-- A `MediaStream`: its `id` and its tracks. -/
structure MediaStream where
  id : String
  tracks : List MediaTrack
deriving DecidableEq, Repr

/-- Model of `stream.getVideoTracks()`. -/
def MediaStream.getVideoTracks (s : MediaStream) : List MediaTrack :=
  s.tracks.filter fun t => t.kind == Kind.video

/-- A media-constraint entry (`mediaConstraints.audio` / `.video` in JS):
a boolean, a non-boolean object, or absent (`undefined`). -/
inductive ConstraintVal where
  | bool (b : Bool)
  | obj
  | undef
deriving DecidableEq, Repr

/-- The gate `typeof v === 'boolean' ? v : true` that `generateOffer` uses in
`recvonly` mode to decide whether a media kind is enabled. -/
def useKind : ConstraintVal → Bool
  | ConstraintVal.bool b => b
  | ConstraintVal.obj => true
  | ConstraintVal.undef => true

/-- The `mediaConstraints` option. -/
structure MediaConstraints where
  audio : ConstraintVal
  video : ConstraintVal
deriving DecidableEq, Repr

/-- First index at which `needle` occurs in `hay` (JS `String.indexOf`,
`-1` becoming `none`). -/
def listIndexOf (needle : List Char) : List Char → Option Nat
  | [] => if needle.isEmpty then some 0 else none
  | c :: rest =>
    if needle.isPrefixOf (c :: rest) then some 0
    else (listIndexOf needle (rest : List Char)).map (· + 1)

/-- The marker searched by `removeFIDFromOffer`. -/
def fidMarker : String := "a=ssrc-group:FID"

/-- Function `removeFIDFromOffer` (WebRtcPeerCore.js lines 92-98): cut the SDP at the
first occurrence of `"a=ssrc-group:FID"`, or return it unchanged when the
marker does not occur. -/
def removeFIDFromOffer (sdp : String) : String :=
  match listIndexOf fidMarker.data sdp.data with
  | none => sdp
  | some n => ⟨sdp.data.take n⟩

/-- The fixed simulcast block appended by `#getSimulcastInfo`, given the
owning stream's id and the first video track's id (`join('\n')` of the
source's line array, whose final `''` entry yields the trailing newline). -/
def simulcastBlock (streamId trackId : String) : String :=
  String.intercalate "\n" [
    "a=x-google-flag:conference",
    "a=ssrc-group:SIM 1 2 3",
    "a=ssrc:1 cname:localVideo",
    "a=ssrc:1 msid:" ++ streamId ++ " " ++ trackId,
    "a=ssrc:1 mslabel:" ++ streamId,
    "a=ssrc:1 label:" ++ trackId,
    "a=ssrc:2 cname:localVideo",
    "a=ssrc:2 msid:" ++ streamId ++ " " ++ trackId,
    "a=ssrc:2 mslabel:" ++ streamId,
    "a=ssrc:2 label:" ++ trackId,
    "a=ssrc:3 cname:localVideo",
    "a=ssrc:3 msid:" ++ streamId ++ " " ++ trackId,
    "a=ssrc:3 mslabel:" ++ streamId,
    "a=ssrc:3 label:" ++ trackId,
    ""]

/-- Method `#getSimulcastInfo` (WebRtcPeerCore.js lines 598-626).  Returns the block
to append and whether the "No video tracks available" warning was logged. -/
def getSimulcastInfo (videoStream : MediaStream) : String × Bool :=
  match videoStream.getVideoTracks with
  | [] => ("", true)
  | t :: _ => (simulcastBlock videoStream.id t.id, false)

/-- The SDP-mangling part of `#setLocalDescription` (WebRtcPeerCore.js lines
739-755).  With simulcast off, or on without Plan-B support (only a warning is
logged), the description is unchanged; otherwise a new description is built
from `removeFIDFromOffer` plus the simulcast block.  When `#videoStream` is
`undefined` the JS would fail with a `TypeError` inside `#getSimulcastInfo`. -/
def mangleLocalDescription (simulcast usePlanB : Bool)
    (videoStream : Option MediaStream) (d : SessionDescription) :
    Except JsErr SessionDescription :=
  if simulcast then
    if !usePlanB then Except.ok d
    else
      match videoStream with
      | none => Except.error JsErr.typeError
      | some vs =>
        Except.ok { type := d.type,
                    sdp := removeFIDFromOffer d.sdp ++ (getSimulcastInfo vs).fst }
  else Except.ok d

/-- The state of the underlying `RTCPeerConnection` collaborator. -/
structure PC where
  connectionState : ConnState
  transceivers : List Transceiver
  localDescription : Option SessionDescription
  remoteDescription : Option SessionDescription
deriving DecidableEq, Repr

/-- Collaborator model: `pc.addTransceiver(kind, {direction})` — throws
`InvalidStateError` (without mutating) on a closed connection, otherwise
appends a transceiver.  Returns the connection state and the error, if any. -/
def PC.addTransceiverM (pc : PC) (k : Kind) (dir : Direction) : PC × Option JsErr :=
  if pc.connectionState == ConnState.closed then (pc, some JsErr.invalidStateError)
  else ({ pc with transceivers := pc.transceivers ++ [⟨k, dir⟩] }, none)

/-- The `sendonly` branch of `generateOffer`:
`for (const transceiver of getTransceivers()) transceiver.direction = "sendonly"`.
Collaborator model: assigning `direction` on a transceiver of a closed
connection (whose transceivers are all stopped) throws `InvalidStateError`,
so with at least one transceiver the loop throws before mutating; with none
it does nothing. -/
def PC.setTransceiversSendonly (pc : PC) : PC × Option JsErr :=
  if pc.transceivers.isEmpty then (pc, none)
  else if pc.connectionState == ConnState.closed then (pc, some JsErr.invalidStateError)
  else ({ pc with transceivers :=
            pc.transceivers.map fun t => { t with direction := Direction.sendonly } }, none)

/-- Collaborator model: `pc.createOffer()` / `pc.createAnswer()` — rejects on
a closed connection, otherwise resolves with an SDP produced by the engine,
abstracted as a function `mk` of the connection state. -/
def PC.createSdpM (pc : PC) (mk : PC → String) : Except JsErr String :=
  if pc.connectionState == ConnState.closed then Except.error JsErr.invalidStateError
  else Except.ok (mk pc)

/-- Collaborator model: `pc.setLocalDescription(d)` — rejects (without
mutating) on a closed connection, otherwise stores the description. -/
def PC.setLocalDescriptionRaw (pc : PC) (d : SessionDescription) : PC × Option JsErr :=
  if pc.connectionState == ConnState.closed then (pc, some JsErr.invalidStateError)
  else ({ pc with localDescription := some d }, none)

/-- Collaborator model: `pc.setRemoteDescription(d)` — rejects (without
mutating) on a closed connection, otherwise stores the description. -/
def PC.setRemoteDescriptionRaw (pc : PC) (d : SessionDescription) : PC × Option JsErr :=
  if pc.connectionState == ConnState.closed then (pc, some JsErr.invalidStateError)
  else ({ pc with remoteDescription := some d }, none)

/-- The observable outcome of calling one of the wrapper's negotiation
methods: a synchronous exception escaping the method call, a rejection of the
returned promise, or a resolution — each together with the final state of the
underlying connection. -/
inductive JsResult (α : Type) where
  | thrown (pc : PC) (e : JsErr)
  | rejected (pc : PC) (e : JsErr)
  | resolved (pc : PC) (a : α)
deriving DecidableEq, Repr

/-- The connection state carried by an outcome. -/
def JsResult.pcOf {α : Type} : JsResult α → PC
  | JsResult.thrown pc _ => pc
  | JsResult.rejected pc _ => pc
  | JsResult.resolved pc _ => pc

/-- Whether the outcome is a promise rejection. -/
def JsResult.isRejected {α : Type} : JsResult α → Bool
  | JsResult.rejected _ _ => true
  | _ => false

/-- Whether the outcome is a resolution. -/
def JsResult.isResolved {α : Type} : JsResult α → Bool
  | JsResult.resolved _ _ => true
  | _ => false

/-- The per-peer options `generateOffer` / `processOffer` depend on. -/
structure PeerCfg where
  mode : String
  mediaConstraints : MediaConstraints
  simulcast : Bool
  usePlanB : Bool
  videoStream : Option MediaStream
deriving Repr

/-- The wrapper's `#setLocalDescription` applied to the connection: mangle
(errors there surface as rejections, the mangling runs inside a `.then`
callback), then `pc.setLocalDescription`. -/
def setLocalDescriptionM (cfg : PeerCfg) (pc : PC) (d : SessionDescription) :
    PC × Option JsErr :=
  match mangleLocalDescription cfg.simulcast cfg.usePlanB cfg.videoStream d with
  | Except.error e => (pc, some e)
  | Except.ok d2 => pc.setLocalDescriptionRaw d2

/-- Method `generateOffer` (WebRtcPeerCore.js lines 354-408).  The `switch` on the
mode runs synchronously in the method body, so a collaborator throw there
escapes as a synchronous exception; `createOffer`, `#setLocalDescription` and
the final read of `localDescription.sdp` run in the promise chain, so their
failures surface as rejections.  Note the method performs no
closed-connection check of its own. -/
def generateOffer (cfg : PeerCfg) (mk : PC → String) (pc : PC) : JsResult String :=
  let step1 : PC × Option JsErr :=
    if cfg.mode == "recvonly" then
      let useAudio := useKind cfg.mediaConstraints.audio
      let useVideo := useKind cfg.mediaConstraints.video
      let (pcA, eA) :=
        if useAudio then pc.addTransceiverM Kind.audio Direction.recvonly else (pc, none)
      match eA with
      | some e => (pcA, some e)
      | none =>
        if useVideo then pcA.addTransceiverM Kind.video Direction.recvonly else (pcA, none)
    else if cfg.mode == "sendonly" then pc.setTransceiversSendonly
    else (pc, none)
  match step1 with
  | (pc1, some e) => JsResult.thrown pc1 e
  | (pc1, none) =>
    match pc1.createSdpM mk with
    | Except.error e => JsResult.rejected pc1 e
    | Except.ok sdp =>
      match setLocalDescriptionM cfg pc1 ⟨"offer", sdp⟩ with
      | (pc2, some e) => JsResult.rejected pc2 e
      | (pc2, none) =>
        match pc2.localDescription with
        | some d => JsResult.resolved pc2 d.sdp
        | none => JsResult.rejected pc2 JsErr.typeError

/-- Method `processOffer` (WebRtcPeerCore.js lines 469-485): reject immediately with
`Error('PeerConnection is closed')` on a closed connection; otherwise set the
remote description, create an answer (`mkAnswer` abstracts the engine), set
it as local description through `#setLocalDescription`, and resolve with the
resulting local SDP. -/
def processOffer (cfg : PeerCfg) (mkAnswer : PC → String) (pc : PC) (sdp : String) :
    JsResult String :=
  if pc.connectionState == ConnState.closed then
    JsResult.rejected pc (JsErr.error "PeerConnection is closed")
  else
    match pc.setRemoteDescriptionRaw ⟨"offer", sdp⟩ with
    | (pc1, some e) => JsResult.rejected pc1 e
    | (pc1, none) =>
      match pc1.createSdpM mkAnswer with
      | Except.error e => JsResult.rejected pc1 e
      | Except.ok asdp =>
        match setLocalDescriptionM cfg pc1 ⟨"answer", asdp⟩ with
        | (pc2, some e) => JsResult.rejected pc2 e
        | (pc2, none) =>
          match pc2.localDescription with
          | some d => JsResult.resolved pc2 d.sdp
          | none => JsResult.rejected pc2 JsErr.typeError

/-- Method `processAnswer` (WebRtcPeerCore.js lines 440-453): reject immediately
with `Error('PeerConnection is closed')` on a closed connection; otherwise
set the remote description (then `#setRemoteVideo`, which does not touch the
connection). -/
def processAnswer (pc : PC) (sdp : String) : JsResult Unit :=
  if pc.connectionState == ConnState.closed then
    JsResult.rejected pc (JsErr.error "PeerConnection is closed")
  else
    match pc.setRemoteDescriptionRaw ⟨"answer", sdp⟩ with
    | (pc1, some e) => JsResult.rejected pc1 e
    | (pc1, none) => JsResult.resolved pc1 ()

/-- A closed peer connection with no transceivers and no descriptions. -/
def pcClosed0 : PC := ⟨ConnState.closed, [], none, none⟩

/-- A fresh (open) peer connection. -/
def pcOpen0 : PC := ⟨ConnState.new, [], none, none⟩

/-- A `recvonly` peer configuration with the source's default
`MEDIA_CONSTRAINTS` (`audio: true`, `video: {width:640, framerate:15}`), no
simulcast. -/
def cfgRecvDefault : PeerCfg :=
  ⟨"recvonly", ⟨ConstraintVal.bool true, ConstraintVal.obj⟩, false, false, none⟩

/-- The transceivers the `recvonly` branch of `generateOffer` adds for given
audio/video media constraints. -/
def recvonlyAdded (ma mv : ConstraintVal) : List Transceiver :=
  (if useKind ma then [⟨Kind.audio, Direction.recvonly⟩] else [])
    ++ (if useKind mv then [⟨Kind.video, Direction.recvonly⟩] else [])

/-- Checks that `candidategatheringdone` fires at most once per gathering cycle in an
emission trace: starting from flag `b`, a `candidategatheringdone` emission is
only legal while the flag is off, sets it, and only an `icecandidate` emission
clears it again. -/
def doneOncePerCycle : Bool → List IceEmit → Bool
  | _, [] => true
  | _, IceEmit.icecandidate _ :: rest => doneOncePerCycle false rest
  | flag, IceEmit.candidategatheringdone :: rest => !flag && doneOncePerCycle true rest

lemma doneOncePerCycle_runIce (evs : List (Option Candidate)) :
    ∀ st : IceState, doneOncePerCycle st.gatheringDone (runIce true st evs).snd = true := by
  induction evs with
  | nil => intro st; simp [runIce, doneOncePerCycle]
  | cons ev evs ih =>
    intro st
    cases ev with
    | some c =>
      simpa [runIce, onIcecandidate, doneOncePerCycle] using
        ih { st with gatheringDone := false }
    | none =>
      by_cases h : st.gatheringDone
      · have := ih st
        simpa [runIce, onIcecandidate, doneOncePerCycle, h] using this
      · have := ih { st with gatheringDone := true }
        simpa [runIce, onIcecandidate, doneOncePerCycle, h] using this

/-- Claim C2 (code bug evidence).  One candidate `7` and then the terminal null
candidate are processed while no `icecandidate`/`candidategatheringdone`
listener is attached, so the queue holds `[some 7, none]` and the
gathering-done flag is set.  Attaching an `icecandidate` listener replays
exactly the one candidate and empties the queue, but attaching a
`candidategatheringdone` listener delivers nothing at all and leaves the
queue untouched: `#onNewListener`'s guard
`iscandidategatheringdone && event !== 'icecandidate'` returns immediately
for the very event it is meant to replay, so the queued terminal marker is
never delivered, contradicting the spec ("the terminal marker is delivered
to a gathering-done listener, then the queue is drained") and the handler's
own comment ("queue the candidate until one of them is listened"). -/
theorem claim_c2_gatheringdone_replay_never_happens :
    (runIce false ⟨false, []⟩ [some 7, none]).fst = ⟨true, [some 7, none]⟩ ∧
    onNewListener "icecandidate" ⟨true, [some 7, none]⟩ = (⟨true, []⟩, [some 7]) ∧
    onNewListener "candidategatheringdone" ⟨true, [some 7, none]⟩
      = (⟨true, [some 7, none]⟩, []) := by
  refine ⟨by decide, by decide, by decide⟩

/-- Claim C3.  While at least one `icecandidate` or `candidategatheringdone`
listener is attached, the emission trace of any event sequence satisfies
`doneOncePerCycle`: starting from the current gathering-done flag,
`candidategatheringdone` is emitted only while the flag is off (hence at most
once per cycle, consecutive null candidates emitting it only on the first),
and only an emitted non-null candidate clears the flag again — as the second
conjunct states, processing a non-null candidate with a listener attached
always resets the flag to `false`. -/
theorem claim_c3_gatheringdone_at_most_once_per_cycle
    (st st2 : IceState) (evs : List (Option Candidate)) (c : Candidate) :
    doneOncePerCycle st.gatheringDone (runIce true st evs).snd = true ∧
    (onIcecandidate true st2 (some c)).fst.gatheringDone = false := by
  exact ⟨doneOncePerCycle_runIce evs st, by simp [onIcecandidate]⟩

/-- Claim C10.  Once the gathering-done flag is set, any ICE candidate event
processed while no `icecandidate`/`candidategatheringdone` listener is
attached is discarded entirely: the state (queue and flag) is unchanged and
nothing is emitted.  Moreover, from such a state the flag can only become
`false` through an event that is a non-null candidate processed while a
listener is attached. -/
theorem claim_c10_discard_after_gatheringdone
    (st : IceState) (ev ev2 : Option Candidate) (hl : Bool)
    (h : st.gatheringDone = true) :
    onIcecandidate false st ev = (st, []) ∧
    ((onIcecandidate hl st ev2).fst.gatheringDone = false →
      hl = true ∧ ev2.isSome = true) := by
  constructor
  · simp [onIcecandidate, h]
  · cases hl with
    | false =>
      intro hfalse
      rw [show onIcecandidate false st ev2 = (st, []) by simp [onIcecandidate, h]] at hfalse
      simp [h] at hfalse
    | true =>
      cases ev2 with
      | some c => intro _; exact ⟨rfl, rfl⟩
      | none =>
        intro hfalse
        simp [onIcecandidate, h] at hfalse

/-- Witness for C10 at a concrete state. -/
theorem claim_c10_discard_after_gatheringdone_witness :
    (⟨true, [some 3]⟩ : IceState).gatheringDone = true ∧
    (onIcecandidate false ⟨true, [some 3]⟩ (some 9) = (⟨true, [some 3]⟩, []) ∧
      ((onIcecandidate true ⟨true, [some 3]⟩ (some 5)).fst.gatheringDone = false →
        true = true ∧ (some 5 : Option Candidate).isSome = true)) :=
  ⟨rfl, claim_c10_discard_after_gatheringdone ⟨true, [some 3]⟩ (some 9) (some 5) true rfl⟩

/-- Claim C1 (counterexample).  On a closed connection, `generateOffer` in
`recvonly` mode with the default media constraints does not fail with a
promise rejection at all: the collaborator's `addTransceiver` throws
`InvalidStateError` synchronously out of the method body, because
`generateOffer` — unlike `processOffer` and `processAnswer` — performs no
closed-connection check of its own. -/
theorem claim_c1_generateOffer_closed_counterexample :
    generateOffer cfgRecvDefault (fun _ => "offer-sdp") pcClosed0
      = JsResult.thrown pcClosed0 JsErr.invalidStateError ∧
    (generateOffer cfgRecvDefault (fun _ => "offer-sdp") pcClosed0).isRejected = false :=
  ⟨rfl, rfl⟩

/-- Claim C1 (amended).  On a closed connection, `processOffer` and
`processAnswer` reject with `Error('PeerConnection is closed')` and leave the
connection state untouched; `generateOffer` performs no closed-state check of
its own and never resolves — it fails through the underlying connection
(synchronously in `recvonly`/`sendonly` modes, as a rejection otherwise) —
and also leaves the connection state untouched. -/
theorem claim_c1_closed_negotiation_amended
    (cfg : PeerCfg) (mk mkA : PC → String) (pc : PC) (sdp asdp : String)
    (h : pc.connectionState = ConnState.closed) :
    processOffer cfg mkA pc sdp
      = JsResult.rejected pc (JsErr.error "PeerConnection is closed") ∧
    processAnswer pc asdp
      = JsResult.rejected pc (JsErr.error "PeerConnection is closed") ∧
    (generateOffer cfg mk pc).pcOf = pc ∧
    (generateOffer cfg mk pc).isResolved = false := by
  refine ⟨by simp [processOffer, h], by simp [processAnswer, h], ?_⟩
  have hgen : (generateOffer cfg mk pc).pcOf = pc ∧
      (generateOffer cfg mk pc).isResolved = false := by
    by_cases h1 : cfg.mode == "recvonly"
    · by_cases ha : useKind cfg.mediaConstraints.audio <;>
      by_cases hv : useKind cfg.mediaConstraints.video <;>
        simp [generateOffer, h1, ha, hv, PC.addTransceiverM, PC.createSdpM, h,
          JsResult.pcOf, JsResult.isResolved]
    · by_cases h2 : cfg.mode == "sendonly"
      · by_cases he : pc.transceivers.isEmpty <;>
          simp [generateOffer, h1, h2, he, PC.setTransceiversSendonly, PC.createSdpM,
            h, JsResult.pcOf, JsResult.isResolved]
      · simp [generateOffer, h1, h2, PC.createSdpM, h, JsResult.pcOf,
          JsResult.isResolved]
  exact hgen

/-- Witness for the amended C1 at a concrete closed connection. -/
theorem claim_c1_closed_negotiation_witness :
    pcClosed0.connectionState = ConnState.closed ∧
    (processOffer cfgRecvDefault (fun _ => "a-sdp") pcClosed0 "o-sdp"
        = JsResult.rejected pcClosed0 (JsErr.error "PeerConnection is closed") ∧
      processAnswer pcClosed0 "a-sdp"
        = JsResult.rejected pcClosed0 (JsErr.error "PeerConnection is closed") ∧
      (generateOffer cfgRecvDefault (fun _ => "o-sdp") pcClosed0).pcOf = pcClosed0 ∧
      (generateOffer cfgRecvDefault (fun _ => "o-sdp") pcClosed0).isResolved = false) :=
  ⟨rfl, claim_c1_closed_negotiation_amended cfgRecvDefault (fun _ => "o-sdp")
    (fun _ => "a-sdp") pcClosed0 "o-sdp" "a-sdp" rfl⟩

/-- Claim C4.  On an open connection in `recvonly` mode, `generateOffer` adds
exactly one `recvonly` transceiver per media kind whose constraint is not the
boolean `false` (a boolean `true`, a non-boolean value and an absent value all
count as enabled), audio first, and zero for a kind whose constraint is the
boolean `false` — whatever the simulcast settings, the transceivers of the
final connection state are the original ones followed by exactly the enabled
additions.  With simulcast off the whole method resolves, and the offer the
engine is asked for is created from the state already holding the added
transceivers. -/
theorem claim_c4_recvonly_transceivers
    (ma mv : ConstraintVal) (sim upb : Bool) (vs : Option MediaStream)
    (mk : PC → String) (pc : PC)
    (h : pc.connectionState ≠ ConnState.closed) :
    ((generateOffer ⟨"recvonly", ⟨ma, mv⟩, sim, upb, vs⟩ mk pc).pcOf.transceivers
        = pc.transceivers ++ recvonlyAdded ma mv) ∧
    (generateOffer ⟨"recvonly", ⟨ma, mv⟩, false, upb, vs⟩ mk pc
      = JsResult.resolved
          { pc with transceivers := pc.transceivers ++ recvonlyAdded ma mv,
                    localDescription := some ⟨"offer",
                      mk { pc with
                            transceivers := pc.transceivers ++ recvonlyAdded ma mv }⟩ }
          (mk { pc with transceivers := pc.transceivers ++ recvonlyAdded ma mv })) := by
  have h' : (pc.connectionState == ConnState.closed) = false := by
    simp [h]
  constructor
  · by_cases ha : useKind ma <;> by_cases hv : useKind mv <;>
      cases sim <;> cases upb <;> cases vs <;>
        simp [generateOffer, recvonlyAdded, ha, hv, h', PC.addTransceiverM,
          PC.createSdpM, setLocalDescriptionM, mangleLocalDescription,
          PC.setLocalDescriptionRaw, JsResult.pcOf]
  · by_cases ha : useKind ma <;> by_cases hv : useKind mv <;>
      simp [generateOffer, recvonlyAdded, ha, hv, h', PC.addTransceiverM,
        PC.createSdpM, setLocalDescriptionM, mangleLocalDescription,
        PC.setLocalDescriptionRaw]

/-- Witness for C4: a fresh open connection with audio disabled by the
boolean `false` and video constraint a non-boolean object. -/
theorem claim_c4_recvonly_transceivers_witness :
    pcOpen0.connectionState ≠ ConnState.closed ∧
    (((generateOffer ⟨"recvonly", ⟨ConstraintVal.bool false, ConstraintVal.obj⟩,
          false, false, none⟩ (fun _ => "o") pcOpen0).pcOf.transceivers
        = pcOpen0.transceivers ++ recvonlyAdded (ConstraintVal.bool false) ConstraintVal.obj) ∧
      (generateOffer ⟨"recvonly", ⟨ConstraintVal.bool false, ConstraintVal.obj⟩,
          false, false, none⟩ (fun _ => "o") pcOpen0
        = JsResult.resolved
            { pcOpen0 with
                transceivers := pcOpen0.transceivers
                  ++ recvonlyAdded (ConstraintVal.bool false) ConstraintVal.obj,
                localDescription := some ⟨"offer",
                  (fun _ => "o") { pcOpen0 with
                    transceivers := pcOpen0.transceivers
                      ++ recvonlyAdded (ConstraintVal.bool false) ConstraintVal.obj }⟩ }
            ((fun _ => "o") { pcOpen0 with
                transceivers := pcOpen0.transceivers
                  ++ recvonlyAdded (ConstraintVal.bool false) ConstraintVal.obj }))) :=
  ⟨by decide,
    claim_c4_recvonly_transceivers (ConstraintVal.bool false) ConstraintVal.obj
      false false none (fun _ => "o") pcOpen0 (by decide)⟩

lemma listIndexOf_first (needle : List Char) :
    ∀ (hay : List Char) (n : Nat), listIndexOf needle hay = some n →
      needle.isPrefixOf (hay.drop n) = true ∧
      ∀ m, m < n → needle.isPrefixOf (hay.drop m) = false := by
  intro hay
  induction hay with
  | nil =>
    intro n hn
    by_cases he : needle.isEmpty
    · simp only [listIndexOf, he, if_true, Option.some.injEq] at hn
      subst hn
      have hne : needle = [] := by simpa using he
      subst hne
      exact ⟨by simp [List.isPrefixOf], fun m hm => absurd hm (Nat.not_lt_zero m)⟩
    · simp [listIndexOf, he] at hn
  | cons c rest ih =>
    intro n hn
    cases hp : needle.isPrefixOf (c :: rest) with
    | true =>
      simp only [listIndexOf, hp, if_true, Option.some.injEq] at hn
      subst hn
      exact ⟨by simpa using hp, fun m hm => absurd hm (Nat.not_lt_zero m)⟩
    | false =>
      simp only [listIndexOf, hp, Bool.false_eq_true, if_false, Option.map_eq_some'] at hn
      obtain ⟨k, hk, hkn⟩ := hn
      obtain ⟨h1, h2⟩ := ih k hk
      subst hkn
      refine ⟨by simpa using h1, ?_⟩
      intro m hm
      cases m with
      | zero => simpa using hp
      | succ m2 => simpa using h2 m2 (by omega)

/-- Claim C6 (counterexample).  With simulcast on, Plan-B support, and a local
video stream with no video tracks, the appended block is empty but the SDP
set as local description is *not* the original SDP: the original still goes
through `removeFIDFromOffer`, which truncates it at its `a=ssrc-group:FID`
line. -/
theorem claim_c6_unmodified_counterexample :
    setLocalDescriptionM
        ⟨"sendrecv", ⟨ConstraintVal.bool true, ConstraintVal.obj⟩, true, true,
          some ⟨"stream0", []⟩⟩
        pcOpen0 ⟨"offer", "v=0\na=ssrc-group:FID 1 2\nrest"⟩
      = ({ pcOpen0 with localDescription := some ⟨"offer", "v=0\n"⟩ }, none) ∧
    ("v=0\n" : String) ≠ "v=0\na=ssrc-group:FID 1 2\nrest" :=
  ⟨rfl, by decide⟩

/-- Claim C6 (amended).  With simulcast enabled, Plan-B support and a held
local video stream with no video tracks: the warning is logged, the appended
simulcast block is the empty string, and the SDP text set as local
description is `removeFIDFromOffer` of the original offer SDP — which equals
the original exactly when `a=ssrc-group:FID` does not occur in it. -/
theorem claim_c6_no_video_tracks_amended
    (cfg : PeerCfg) (pc : PC) (vs : MediaStream) (ty sdp : String)
    (hvs : cfg.videoStream = some vs) (hsim : cfg.simulcast = true)
    (hupb : cfg.usePlanB = true) (hempty : vs.getVideoTracks = [])
    (hopen : pc.connectionState ≠ ConnState.closed) :
    getSimulcastInfo vs = ("", true) ∧
    setLocalDescriptionM cfg pc ⟨ty, sdp⟩
      = ({ pc with localDescription := some ⟨ty, removeFIDFromOffer sdp⟩ }, none) ∧
    (listIndexOf fidMarker.data sdp.data = none → removeFIDFromOffer sdp = sdp) := by
  have h' : (pc.connectionState == ConnState.closed) = false := by simp [hopen]
  refine ⟨by simp [getSimulcastInfo, hempty], ?_, ?_⟩
  · simp [setLocalDescriptionM, mangleLocalDescription, hsim, hupb, hvs,
      getSimulcastInfo, hempty, PC.setLocalDescriptionRaw, h']
  · intro hnone
    simp [removeFIDFromOffer, hnone]

/-- Witness for the amended C6: an open connection, a videoless stream and an
SDP without any FID group. -/
theorem claim_c6_no_video_tracks_witness :
    ((⟨"sendrecv", ⟨ConstraintVal.bool true, ConstraintVal.obj⟩, true, true,
        some ⟨"stream0", []⟩⟩ : PeerCfg).videoStream = some ⟨"stream0", []⟩ ∧
      (MediaStream.mk "stream0" []).getVideoTracks = [] ∧
      listIndexOf fidMarker.data ("v=0\nm=video\n" : String).data = none) ∧
    (getSimulcastInfo ⟨"stream0", []⟩ = ("", true) ∧
      setLocalDescriptionM
          ⟨"sendrecv", ⟨ConstraintVal.bool true, ConstraintVal.obj⟩, true, true,
            some ⟨"stream0", []⟩⟩
          pcOpen0 ⟨"offer", "v=0\nm=video\n"⟩
        = ({ pcOpen0 with
              localDescription := some ⟨"offer", removeFIDFromOffer "v=0\nm=video\n"⟩ },
           none) ∧
      (listIndexOf fidMarker.data ("v=0\nm=video\n" : String).data = none →
        removeFIDFromOffer "v=0\nm=video\n" = "v=0\nm=video\n")) :=
  ⟨⟨rfl, rfl, by decide⟩,
    claim_c6_no_video_tracks_amended
      ⟨"sendrecv", ⟨ConstraintVal.bool true, ConstraintVal.obj⟩, true, true,
        some ⟨"stream0", []⟩⟩
      pcOpen0 ⟨"stream0", []⟩ "offer" "v=0\nm=video\n" rfl rfl rfl rfl (by decide)⟩

/-- Claim C7.  With simulcast enabled, Plan-B support and a held local video
stream whose first video track is `t`: the SDP set as local description is
the input SDP truncated at the first occurrence of `a=ssrc-group:FID`
(unchanged when the marker is absent), followed by the fixed
`a=ssrc-group:SIM 1 2 3` / `a=ssrc` block for SSRCs 1, 2 and 3 built from the
stream's id and `t`'s id.  The last conjuncts pin down "truncated at the
first occurrence": the cut index carries the marker and no earlier index
does. -/
theorem claim_c7_simulcast_mangling
    (cfg : PeerCfg) (pc : PC) (vs : MediaStream) (t : MediaTrack)
    (vrest : List MediaTrack) (ty sdp : String) (n m : Nat)
    (hvs : cfg.videoStream = some vs) (hsim : cfg.simulcast = true)
    (hupb : cfg.usePlanB = true) (htracks : vs.getVideoTracks = t :: vrest)
    (hopen : pc.connectionState ≠ ConnState.closed) :
    setLocalDescriptionM cfg pc ⟨ty, sdp⟩
      = ({ pc with
            localDescription :=
              some ⟨ty, removeFIDFromOffer sdp ++ simulcastBlock vs.id t.id⟩ }, none) ∧
    (listIndexOf fidMarker.data sdp.data = none → removeFIDFromOffer sdp = sdp) ∧
    (listIndexOf fidMarker.data sdp.data = some n →
      removeFIDFromOffer sdp = ⟨sdp.data.take n⟩ ∧
      fidMarker.data.isPrefixOf (sdp.data.drop n) = true) ∧
    (listIndexOf fidMarker.data sdp.data = some n → m < n →
      fidMarker.data.isPrefixOf (sdp.data.drop m) = false) := by
  have h' : (pc.connectionState == ConnState.closed) = false := by simp [hopen]
  refine ⟨?_, ?_, ?_, ?_⟩
  · simp [setLocalDescriptionM, mangleLocalDescription, hsim, hupb, hvs,
      getSimulcastInfo, htracks, PC.setLocalDescriptionRaw, h']
  · intro hnone
    simp [removeFIDFromOffer, hnone]
  · intro hsome
    exact ⟨by simp [removeFIDFromOffer, hsome],
      (listIndexOf_first fidMarker.data sdp.data n hsome).1⟩
  · intro hsome hm
    exact (listIndexOf_first fidMarker.data sdp.data n hsome).2 m hm

/-- Witness for C7: an SDP whose FID group starts at index 4, a stream with
one video track, an open connection. -/
theorem claim_c7_simulcast_mangling_witness :
    (listIndexOf fidMarker.data ("v=0\na=ssrc-group:FID 1 2\n" : String).data = some 4 ∧
      (MediaStream.mk "streamA" [⟨"trackV", Kind.video⟩]).getVideoTracks
        = [⟨"trackV", Kind.video⟩] ∧ (1 : Nat) < 4) ∧
    (setLocalDescriptionM
        ⟨"sendrecv", ⟨ConstraintVal.bool true, ConstraintVal.obj⟩, true, true,
          some ⟨"streamA", [⟨"trackV", Kind.video⟩]⟩⟩
        pcOpen0 ⟨"offer", "v=0\na=ssrc-group:FID 1 2\n"⟩
      = ({ pcOpen0 with
            localDescription :=
              some ⟨"offer", removeFIDFromOffer "v=0\na=ssrc-group:FID 1 2\n"
                ++ simulcastBlock "streamA" "trackV"⟩ }, none) ∧
      (listIndexOf fidMarker.data ("v=0\na=ssrc-group:FID 1 2\n" : String).data = none →
        removeFIDFromOffer "v=0\na=ssrc-group:FID 1 2\n" = "v=0\na=ssrc-group:FID 1 2\n") ∧
      (listIndexOf fidMarker.data ("v=0\na=ssrc-group:FID 1 2\n" : String).data = some 4 →
        removeFIDFromOffer "v=0\na=ssrc-group:FID 1 2\n"
          = ⟨("v=0\na=ssrc-group:FID 1 2\n" : String).data.take 4⟩ ∧
        fidMarker.data.isPrefixOf (("v=0\na=ssrc-group:FID 1 2\n" : String).data.drop 4)
          = true) ∧
      (listIndexOf fidMarker.data ("v=0\na=ssrc-group:FID 1 2\n" : String).data = some 4 →
        1 < 4 →
        fidMarker.data.isPrefixOf (("v=0\na=ssrc-group:FID 1 2\n" : String).data.drop 1)
          = false)) :=
  ⟨⟨by decide, rfl, by decide⟩,
    claim_c7_simulcast_mangling
      ⟨"sendrecv", ⟨ConstraintVal.bool true, ConstraintVal.obj⟩, true, true,
        some ⟨"streamA", [⟨"trackV", Kind.video⟩]⟩⟩
      pcOpen0 ⟨"streamA", [⟨"trackV", Kind.video⟩]⟩ ⟨"trackV", Kind.video⟩ []
      "offer" "v=0\na=ssrc-group:FID 1 2\n" 4 1 rfl rfl rfl rfl (by decide)⟩

/-! ## `audioEnabled` / `videoEnabled` -/

/-- The track of one sender as `getMediaEnabled`/`setMediaEnabled` see it:
its kind and its mutable `enabled` flag. -/
structure SenderTrack where
  kind : Kind
  enabled : Bool
deriving DecidableEq, Repr

/-- The scanning loop of `getMediaEnabled` (WebRtcPeerCore.js lines 111-123):
`for (const {track} of senders) if (track.kind === type && !track.enabled) return false; return true`. -/
def getMediaEnabledLoop (ty : Kind) : List SenderTrack → Bool
  | [] => true
  | t :: rest =>
    if t.kind == ty && !t.enabled then false else getMediaEnabledLoop ty rest

/-- Function `getMediaEnabled`: `undefined` (here `none`) when the connection has no
senders, otherwise the loop's verdict. -/
def getMediaEnabled (ty : Kind) (senders : List SenderTrack) : Option Bool :=
  if senders.isEmpty then none else some (getMediaEnabledLoop ty senders)

/-- Function `setMediaEnabled` (WebRtcPeerCore.js lines 125-131): assign `enabled` on
every sender track of the given kind. -/
def setMediaEnabled (ty : Kind) (value : Bool) (senders : List SenderTrack) :
    List SenderTrack :=
  senders.map fun t => if t.kind == ty then { t with enabled := value } else t

lemma getMediaEnabledLoop_false (ty : Kind) (t0 : SenderTrack) :
    ∀ senders : List SenderTrack, t0 ∈ senders → t0.kind = ty → t0.enabled = false →
      getMediaEnabledLoop ty senders = false := by
  intro senders
  induction senders with
  | nil => intro h; simp at h
  | cons s rest ih =>
    intro hmem hk he
    rcases List.mem_cons.mp hmem with h | h
    · subst h
      simp [getMediaEnabledLoop, hk, he]
    · by_cases hs : s.kind == ty && !s.enabled
      · simp [getMediaEnabledLoop, hs]
      · simp [getMediaEnabledLoop, hs, ih h hk he]

lemma getMediaEnabledLoop_true (ty : Kind) :
    ∀ senders : List SenderTrack,
      (senders.all fun t => !(t.kind == ty) || t.enabled) = true →
      getMediaEnabledLoop ty senders = true := by
  intro senders
  induction senders with
  | nil => intro _; rfl
  | cons s rest ih =>
    intro hall
    simp only [List.all_cons, Bool.and_eq_true] at hall
    cases hsk : s.kind == ty with
    | false => simp [getMediaEnabledLoop, hsk, ih hall.2]
    | true =>
      have hse : s.enabled = true := by simpa [hsk] using hall.1
      simp [getMediaEnabledLoop, hsk, hse, ih hall.2]

/-- Claim C8.  `getMediaEnabled` returns `undefined` without senders, `false`
when some sender track of the kind is disabled, `true` otherwise;
`setMediaEnabled` assigns the value to every sender track of the kind (and
only those), so with at least one sender track of the kind, a set followed by
a get yields exactly the value set. -/
theorem claim_c8_media_enabled
    (ty : Kind) (v : Bool) (senders : List SenderTrack) (t0 : SenderTrack) :
    (senders = [] → getMediaEnabled ty senders = none) ∧
    (t0 ∈ senders → t0.kind = ty → t0.enabled = false →
      getMediaEnabled ty senders = some false) ∧
    (senders ≠ [] → (senders.all fun t => !(t.kind == ty) || t.enabled) = true →
      getMediaEnabled ty senders = some true) ∧
    ((setMediaEnabled ty v senders).all
        fun t => !(t.kind == ty) || (t.enabled == v)) = true ∧
    ((setMediaEnabled ty v senders).all
        fun t => (t.kind == ty) || (senders.contains t)) = true ∧
    (t0 ∈ senders → t0.kind = ty →
      getMediaEnabled ty (setMediaEnabled ty v senders) = some v) := by
  refine ⟨?_, ?_, ?_, ?_, ?_, ?_⟩
  · intro h; subst h; rfl
  · intro hmem hk he
    have hne : senders ≠ [] := List.ne_nil_of_mem hmem
    have : senders.isEmpty = false := by
      cases senders with
      | nil => exact absurd rfl hne
      | cons a l => rfl
    simp [getMediaEnabled, this, getMediaEnabledLoop_false ty t0 senders hmem hk he]
  · intro hne hall
    have : senders.isEmpty = false := by
      cases senders with
      | nil => exact absurd rfl hne
      | cons a l => rfl
    simp [getMediaEnabled, this, getMediaEnabledLoop_true ty senders hall]
  · simp only [setMediaEnabled, List.all_eq_true]
    intro x hx
    rcases List.mem_map.mp hx with ⟨u, hu, hux⟩
    by_cases huk : u.kind == ty
    · subst hux; simp [huk]
    · subst hux; simp [huk]
  · simp only [setMediaEnabled, List.all_eq_true]
    intro x hx
    rcases List.mem_map.mp hx with ⟨u, hu, hux⟩
    by_cases huk : u.kind == ty
    · subst hux; simp [huk]
    · subst hux
      simp only [huk, if_false, Bool.false_eq_true, Bool.or_eq_true]
      exact Or.inr (List.elem_eq_true_of_mem hu)
  · intro hmem hk
    have hne : setMediaEnabled ty v senders ≠ [] := by
      cases senders with
      | nil => simp at hmem
      | cons a l => simp [setMediaEnabled]
    have hempty : (setMediaEnabled ty v senders).isEmpty = false := by
      cases h : setMediaEnabled ty v senders with
      | nil => exact absurd h hne
      | cons a l => rfl
    cases v with
    | true =>
      have hall : ((setMediaEnabled ty true senders).all
          fun t => !(t.kind == ty) || t.enabled) = true := by
        simp only [setMediaEnabled, List.all_eq_true]
        intro x hx
        rcases List.mem_map.mp hx with ⟨u, hu, hux⟩
        by_cases huk : u.kind == ty
        · subst hux; simp [huk]
        · subst hux; simp [huk]
      simp [getMediaEnabled, hempty,
        getMediaEnabledLoop_true ty (setMediaEnabled ty true senders) hall]
    | false =>
      have hmem2 : ({ t0 with enabled := false } : SenderTrack)
          ∈ setMediaEnabled ty false senders := by
        have := List.mem_map_of_mem
          (fun t : SenderTrack =>
            if t.kind == ty then { t with enabled := false } else t) hmem
        simpa [setMediaEnabled, hk] using this
      simp [getMediaEnabled, hempty,
        getMediaEnabledLoop_false ty { t0 with enabled := false }
          (setMediaEnabled ty false senders) hmem2 (by simpa using hk) rfl]

/-- Witness for C8 with every hypothesis discharged at a concrete input:
one active audio sender, no senders, a disabled audio sender, and a
set-to-`false`-then-get round trip. -/
theorem claim_c8_media_enabled_witness :
    getMediaEnabled Kind.audio ([] : List SenderTrack) = none ∧
    getMediaEnabled Kind.audio [⟨Kind.audio, false⟩, ⟨Kind.video, true⟩] = some false ∧
    getMediaEnabled Kind.audio [⟨Kind.audio, true⟩] = some true ∧
    getMediaEnabled Kind.audio (setMediaEnabled Kind.audio false [⟨Kind.audio, true⟩])
      = some false :=
  ⟨(claim_c8_media_enabled Kind.audio false [] ⟨Kind.audio, true⟩).1 rfl,
   (claim_c8_media_enabled Kind.audio false [⟨Kind.audio, false⟩, ⟨Kind.video, true⟩]
      ⟨Kind.audio, false⟩).2.1 (by decide) rfl rfl,
   (claim_c8_media_enabled Kind.audio false [⟨Kind.audio, true⟩]
      ⟨Kind.audio, true⟩).2.2.1 (by decide) (by decide),
   (claim_c8_media_enabled Kind.audio false [⟨Kind.audio, true⟩]
      ⟨Kind.audio, true⟩).2.2.2.2.2 (by decide) rfl⟩

/-! ## `dispose` -/

/-- Model of `track.stop()` over a set of stopped track ids: stopping an
already-stopped track is a no-op (per the media-capture standard a stopped
track stays stopped), so the set only grows. -/
def stopTrack (stopped : List Nat) (t : Nat) : List Nat :=
  if t ∈ stopped then stopped else stopped ++ [t]

lemma mem_stopTrack_self (s : List Nat) (t : Nat) : t ∈ stopTrack s t := by
  by_cases h : t ∈ s <;> simp [stopTrack, h]

lemma mem_stopTrack_mono {a : Nat} {s : List Nat} (u : Nat) (h : a ∈ s) :
    a ∈ stopTrack s u := by
  by_cases hu : u ∈ s <;> simp [stopTrack, hu, h]

lemma mem_foldl_stopTrack_mono {a : Nat} (ts : List Nat) :
    ∀ s : List Nat, a ∈ s → a ∈ ts.foldl stopTrack s := by
  induction ts with
  | nil => intro s h; simpa using h
  | cons t ts ih =>
    intro s h
    exact ih (stopTrack s t) (mem_stopTrack_mono t h)

lemma mem_foldl_stopTrack_of_mem {a : Nat} (ts : List Nat) :
    ∀ s : List Nat, a ∈ ts → a ∈ ts.foldl stopTrack s := by
  induction ts with
  | nil => intro s h; simp at h
  | cons t ts ih =>
    intro s h
    rcases List.mem_cons.mp h with h | h
    · subst h
      exact mem_foldl_stopTrack_mono ts (stopTrack s a) (mem_stopTrack_self s a)
    · exact ih (stopTrack s t) h

lemma foldl_stopTrack_absorbed (ts : List Nat) :
    ∀ s : List Nat, (∀ t ∈ ts, t ∈ s) → ts.foldl stopTrack s = s := by
  induction ts with
  | nil => intro s _; rfl
  | cons t ts ih =>
    intro s h
    have ht : t ∈ s := h t (List.mem_cons_self t ts)
    have : stopTrack s t = s := by simp [stopTrack, ht]
    rw [List.foldl_cons, this]
    exact ih s fun u hu => h u (List.mem_cons_of_mem t hu)

/-- The state `dispose` acts on: the underlying connection's state, whether
its `close()` completes without throwing (collaborator behaviour), whether
the close-failure warning has been logged, the held `#audioStream` and
`#videoStream` (lists of track ids), the stopped tracks, and the number of
registered listeners. -/
structure DisposeState where
  connectionState : ConnState
  closeSucceeds : Bool
  closeWarned : Bool
  audioStream : Option (List Nat)
  videoStream : Option (List Nat)
  stopped : List Nat
  listenerCount : Nat
deriving DecidableEq, Repr

/-- Method `dispose` (WebRtcPeerCore.js lines 325-347): return immediately if the
connection is already closed; otherwise `close()` it inside `try`/`catch`
(a throw is logged as a warning, never re-thrown — per the WebRTC standard
`close()` does not throw, the modelled `closeSucceeds = false` case is the
defensive branch), stop every track of the held audio and video streams, and
remove all listeners. -/
def dispose (st : DisposeState) : DisposeState :=
  if st.connectionState == ConnState.closed then st
  else
    let st1 :=
      if st.closeSucceeds then { st with connectionState := ConnState.closed }
      else { st with closeWarned := true }
    let st2 :=
      match st1.audioStream with
      | some ts => { st1 with stopped := ts.foldl stopTrack st1.stopped }
      | none => st1
    let st3 :=
      match st2.videoStream with
      | some ts => { st2 with stopped := ts.foldl stopTrack st2.stopped }
      | none => st2
    { st3 with listenerCount := 0 }

lemma dispose_of_closed (s : DisposeState) (h : s.connectionState = ConnState.closed) :
    dispose s = s := by
  simp [dispose, h]

/-- Claim C9.  `dispose` on an already-closed connection is the identity (no
side effects); `dispose` is idempotent as a state transformer (a second call
changes nothing, so no error and no duplicate side effect is possible);
on a non-closed connection it closes the connection when `close()` succeeds,
only logs a warning when `close()` throws (never re-throwing — `dispose` is
total), stops every track of the held audio and video streams, and removes
all listeners. -/
theorem claim_c9_dispose_idempotent
    (st : DisposeState) (tsa tsv : List Nat) (ta tv : Nat) :
    (st.connectionState = ConnState.closed → dispose st = st) ∧
    dispose (dispose st) = dispose st ∧
    (st.connectionState ≠ ConnState.closed →
      (dispose st).listenerCount = 0 ∧
      (st.closeSucceeds = true → (dispose st).connectionState = ConnState.closed) ∧
      (st.closeSucceeds = false → (dispose st).closeWarned = true ∧
        (dispose st).connectionState = st.connectionState) ∧
      (st.audioStream = some tsa → ta ∈ tsa → ta ∈ (dispose st).stopped) ∧
      (st.videoStream = some tsv → tv ∈ tsv → tv ∈ (dispose st).stopped)) := by
  by_cases hc : st.connectionState = ConnState.closed
  · refine ⟨fun _ => dispose_of_closed st hc, ?_, fun h => absurd hc h⟩
    simp only [dispose_of_closed st hc]
  · have hc' : (st.connectionState == ConnState.closed) = false := by simp [hc]
    refine ⟨fun h => absurd h hc, ?_, fun _ => ?_⟩
    · cases hs : st.closeSucceeds with
      | true =>
        have h1 : (dispose st).connectionState = ConnState.closed := by
          cases ha : st.audioStream <;> cases hv : st.videoStream <;>
            simp [dispose, hc', hs, ha, hv]
        exact dispose_of_closed _ h1
      | false =>
        cases ha : st.audioStream with
        | none =>
          cases hv : st.videoStream with
          | none =>
            have hd : dispose st
                = { st with closeWarned := true, listenerCount := 0 } := by
              simp [dispose, hc', hs, ha, hv]
            rw [hd]
            simp [dispose, hc', hs, ha, hv]
          | some tsV =>
            have hd : dispose st
                = { st with
                      closeWarned := true,
                      stopped := tsV.foldl stopTrack st.stopped,
                      listenerCount := 0 } := by
              simp [dispose, hc', hs, ha, hv]
            rw [hd]
            have habs : tsV.foldl stopTrack (tsV.foldl stopTrack st.stopped)
                = tsV.foldl stopTrack st.stopped :=
              foldl_stopTrack_absorbed tsV _ fun u hu =>
                mem_foldl_stopTrack_of_mem tsV st.stopped hu
            simp [dispose, hc', hs, ha, hv, habs]
        | some tsA =>
          cases hv : st.videoStream with
          | none =>
            have hd : dispose st
                = { st with
                      closeWarned := true,
                      stopped := tsA.foldl stopTrack st.stopped,
                      listenerCount := 0 } := by
              simp [dispose, hc', hs, ha, hv]
            rw [hd]
            have habs : tsA.foldl stopTrack (tsA.foldl stopTrack st.stopped)
                = tsA.foldl stopTrack st.stopped :=
              foldl_stopTrack_absorbed tsA _ fun u hu =>
                mem_foldl_stopTrack_of_mem tsA st.stopped hu
            simp [dispose, hc', hs, ha, hv, habs]
          | some tsV =>
            have hd : dispose st
                = { st with
                      closeWarned := true,
                      stopped := tsV.foldl stopTrack (tsA.foldl stopTrack st.stopped),
                      listenerCount := 0 } := by
              simp [dispose, hc', hs, ha, hv]
            rw [hd]
            have habs1 : tsA.foldl stopTrack
                (tsV.foldl stopTrack (tsA.foldl stopTrack st.stopped))
                = tsV.foldl stopTrack (tsA.foldl stopTrack st.stopped) :=
              foldl_stopTrack_absorbed tsA _ fun u hu =>
                mem_foldl_stopTrack_mono tsV _
                  (mem_foldl_stopTrack_of_mem tsA st.stopped hu)
            have habs2 : tsV.foldl stopTrack
                (tsV.foldl stopTrack (tsA.foldl stopTrack st.stopped))
                = tsV.foldl stopTrack (tsA.foldl stopTrack st.stopped) :=
              foldl_stopTrack_absorbed tsV _ fun u hu =>
                mem_foldl_stopTrack_of_mem tsV _ hu
            simp [dispose, hc', hs, ha, hv, habs1, habs2]
    · refine ⟨?_, ?_, ?_, ?_, ?_⟩
      · cases ha : st.audioStream <;> cases hv : st.videoStream <;>
          cases hs : st.closeSucceeds <;> simp [dispose, hc', ha, hv, hs]
      · intro hs
        cases ha : st.audioStream <;> cases hv : st.videoStream <;>
          simp [dispose, hc', ha, hv, hs]
      · intro hs
        cases ha : st.audioStream <;> cases hv : st.videoStream <;>
          simp [dispose, hc', ha, hv, hs]
      · intro ha hta
        cases hv : st.videoStream with
        | none =>
          cases hs : st.closeSucceeds <;>
            simp [dispose, hc', ha, hv, hs,
              mem_foldl_stopTrack_of_mem tsa st.stopped hta]
        | some tsV =>
          cases hs : st.closeSucceeds <;>
            simp [dispose, hc', ha, hv, hs,
              mem_foldl_stopTrack_mono tsV _
                (mem_foldl_stopTrack_of_mem tsa st.stopped hta)]
      · intro hv htv
        cases ha : st.audioStream <;> cases hs : st.closeSucceeds <;>
          simp [dispose, hc', ha, hv, hs,
            mem_foldl_stopTrack_of_mem tsv _ htv]

/-- Witness for C9 at concrete states: an already-closed peer, and an open
peer with one audio and one video track. -/
theorem claim_c9_dispose_idempotent_witness :
    (DisposeState.mk ConnState.closed true false none none [] 2).connectionState
      = ConnState.closed ∧
    dispose ⟨ConnState.closed, true, false, none, none, [], 2⟩
      = ⟨ConnState.closed, true, false, none, none, [], 2⟩ ∧
    ((DisposeState.mk ConnState.new true false (some [1]) (some [2]) [] 2).connectionState
        ≠ ConnState.closed ∧
      (dispose ⟨ConnState.new, true, false, some [1], some [2], [], 2⟩).listenerCount = 0 ∧
      (dispose ⟨ConnState.new, true, false, some [1], some [2], [], 2⟩).connectionState
        = ConnState.closed ∧
      (1 : Nat) ∈ (dispose ⟨ConnState.new, true, false, some [1], some [2], [], 2⟩).stopped ∧
      (2 : Nat) ∈ (dispose ⟨ConnState.new, true, false, some [1], some [2], [], 2⟩).stopped) :=
  ⟨rfl,
    (claim_c9_dispose_idempotent ⟨ConnState.closed, true, false, none, none, [], 2⟩
      [] [] 0 0).1 rfl,
    by
      have h := claim_c9_dispose_idempotent
        ⟨ConnState.new, true, false, some [1], some [2], [], 2⟩ [1] [2] 1 2
      have h3 := h.2.2 (by decide)
      exact ⟨by decide, h3.1, h3.2.1 rfl, h3.2.2.2.1 rfl (by decide),
        h3.2.2.2.2 rfl (by decide)⟩⟩

/-! ## `replaceStream` -/

/-- The state `replaceStream` acts on: the held `#videoStream` (a list of
track ids), the senders' current tracks (one track id per sender, in sender
order), and the stopped tracks.  Track kinds are immutable attributes, given
by an environment `kindOf`. -/
structure RSState where
  videoStream : Option (List Nat)
  senders : List Nat
  stopped : List Nat
deriving DecidableEq, Repr

/-- The `(senderIndex, previousTrack, newTrack)` replacements performed by
`stream.getTracks().flatMap(replaceTracks, senders)`: for each track of the
new stream, every sender whose current track has the same kind
(`filterTracksType`), with the sender's previous track captured at call time
(`const {track} = sender` in `replaceTrack`).  The filters all run before any
replacement promise resolves, so they see the original sender tracks. -/
def replaceCalls (kindOf : Nat → Kind) (senders : List Nat) (newTracks : List Nat) :
    List (Nat × Nat × Nat) :=
  newTracks.flatMap fun t =>
    (senders.enum.filter fun p => kindOf p.snd == kindOf t).map fun p => (p.fst, p.snd, t)

/-- The effect of one resolved
`sender.replaceTrack(newTrack).then(previousTrack.stop.bind(previousTrack))`:
the sender now holds the new track and its previous track is stopped. -/
def applyCall (st : RSState) (c : Nat × Nat × Nat) : RSState :=
  { st with
      senders := st.senders.set c.fst c.snd.snd,
      stopped := stopTrack st.stopped c.snd.fst }

/-- Method `replaceStream(stream)` (WebRtcPeerCore.js lines 494-507): synchronously
stop every track of the held `#videoStream`, adopt the new stream
(`#setVideoStream`), then perform the sender replacements; the returned state
is the one after all replacement promises have resolved (`Promise.all`), and
the performed calls are returned alongside. -/
def replaceStream (kindOf : Nat → Kind) (st : RSState) (newTracks : List Nat) :
    RSState × List (Nat × Nat × Nat) :=
  let stopped1 :=
    match st.videoStream with
    | some old => old.foldl stopTrack st.stopped
    | none => st.stopped
  let st1 : RSState := ⟨some newTracks, st.senders, stopped1⟩
  let calls := replaceCalls kindOf st1.senders newTracks
  (calls.foldl applyCall st1, calls)

lemma foldl_applyCall_stopped_mono {a : Nat} (calls : List (Nat × Nat × Nat)) :
    ∀ st : RSState, a ∈ st.stopped → a ∈ (calls.foldl applyCall st).stopped := by
  induction calls with
  | nil => intro st h; simpa using h
  | cons c cs ih =>
    intro st h
    exact ih (applyCall st c) (mem_stopTrack_mono _ h)

lemma foldl_applyCall_videoStream (calls : List (Nat × Nat × Nat)) :
    ∀ st : RSState, (calls.foldl applyCall st).videoStream = st.videoStream := by
  induction calls with
  | nil => intro st; rfl
  | cons c cs ih => intro st; simpa [applyCall] using ih (applyCall st c)

lemma foldl_applyCall_length (calls : List (Nat × Nat × Nat)) :
    ∀ st : RSState, (calls.foldl applyCall st).senders.length = st.senders.length := by
  induction calls with
  | nil => intro st; rfl
  | cons c cs ih =>
    intro st
    rw [List.foldl_cons, ih (applyCall st c)]
    simp [applyCall]

lemma foldl_applyCall_call_stopped (calls : List (Nat × Nat × Nat)) :
    ∀ (st : RSState) (c : Nat × Nat × Nat), c ∈ calls →
      c.snd.fst ∈ (calls.foldl applyCall st).stopped := by
  induction calls with
  | nil => intro st c h; simp at h
  | cons d ds ih =>
    intro st c h
    rcases List.mem_cons.mp h with h | h
    · subst h
      rw [List.foldl_cons]
      apply foldl_applyCall_stopped_mono
      exact mem_stopTrack_self st.stopped c.snd.fst
    · exact ih (applyCall st d) c h

lemma mem_replaceCalls {kindOf : Nat → Kind} {senders newTracks : List Nat}
    {i s t : Nat} (ht : t ∈ newTracks) (his : (i, s) ∈ senders.enum)
    (hk : kindOf s = kindOf t) :
    (i, s, t) ∈ replaceCalls kindOf senders newTracks := by
  unfold replaceCalls
  refine List.mem_flatMap.mpr ⟨t, ht, ?_⟩
  exact List.mem_map.mpr ⟨(i, s), List.mem_filter.mpr ⟨his, by simp [hk]⟩, rfl⟩

lemma replaceCalls_shape {kindOf : Nat → Kind} {senders newTracks : List Nat}
    {c : Nat × Nat × Nat} (hc : c ∈ replaceCalls kindOf senders newTracks) :
    (c.fst, c.snd.fst) ∈ senders.enum ∧ c.snd.snd ∈ newTracks ∧
      kindOf c.snd.fst = kindOf c.snd.snd := by
  unfold replaceCalls at hc
  rcases List.mem_flatMap.mp hc with ⟨t, ht, hmem⟩
  rcases List.mem_map.mp hmem with ⟨p, hp, hpc⟩
  rcases List.mem_filter.mp hp with ⟨hpe, hpk⟩
  cases hpc
  exact ⟨hpe, ht, by simpa using hpk⟩

lemma foldl_applyCall_set_last (i t : Nat) (calls : List (Nat × Nat × Nat)) :
    ∀ st : RSState, i < st.senders.length →
      (∀ c ∈ calls, c.fst = i → c.snd.snd = t) →
      (st.senders.getD i 0 = t ∨ ∃ c ∈ calls, c.fst = i) →
      (calls.foldl applyCall st).senders.getD i 0 = t := by
  induction calls with
  | nil =>
    intro st hlen hall hor
    rcases hor with h | ⟨c, hc, _⟩
    · simpa using h
    · simp at hc
  | cons c cs ih =>
    intro st hlen hall hor
    have hlen' : i < (applyCall st c).senders.length := by
      simpa [applyCall, List.length_set] using hlen
    by_cases hci : c.fst = i
    · have hct : c.snd.snd = t := hall c (List.mem_cons_self c cs) hci
      refine ih (applyCall st c) hlen'
        (fun d hd => hall d (List.mem_cons_of_mem c hd)) (Or.inl ?_)
      have hset : (st.senders.set i t)[i]? = some t := List.getElem?_set_self hlen
      simp [applyCall, hci, hct, List.getD_eq_getElem?_getD, hset]
    · refine ih (applyCall st c) hlen'
        (fun d hd => hall d (List.mem_cons_of_mem c hd)) ?_
      rcases hor with h | ⟨d, hd, hdi⟩
      · refine Or.inl ?_
        have hset : (st.senders.set c.fst c.snd.snd)[i]? = st.senders[i]? :=
          List.getElem?_set_ne hci
        rw [show (applyCall st c).senders = st.senders.set c.fst c.snd.snd from rfl]
        rw [List.getD_eq_getElem?_getD, hset, ← List.getD_eq_getElem?_getD]
        exact h
      · rcases List.mem_cons.mp hd with hdc | hd2
        · subst hdc
          exact absurd hdi hci
        · exact Or.inr ⟨d, hd2, hdi⟩

/-- Claim C5.  For a peer holding a local stream `old`, `replaceStream` with a
new stream: every track of the previous stream is stopped (they are stopped
in the synchronous phase, before any new track is attached); the new stream
becomes the held stream; the sender list keeps its length; for every track
`t` of the new stream and every sender whose current track has `t`'s kind, a
replace-track call `(sender, previousTrack, t)` is performed and the sender's
previous track ends up stopped; and — when the new stream has at most one
track per kind — every such sender ends up holding exactly `t`. -/
theorem claim_c5_replaceStream
    (kindOf : Nat → Kind) (st : RSState) (old newTracks : List Nat) (i t u : Nat)
    (hvs : st.videoStream = some old) :
    (u ∈ old → u ∈ (replaceStream kindOf st newTracks).fst.stopped) ∧
    (replaceStream kindOf st newTracks).fst.videoStream = some newTracks ∧
    (replaceStream kindOf st newTracks).fst.senders.length = st.senders.length ∧
    (t ∈ newTracks → i < st.senders.length →
      kindOf (st.senders.getD i 0) = kindOf t →
      (i, st.senders.getD i 0, t) ∈ (replaceStream kindOf st newTracks).snd ∧
      st.senders.getD i 0 ∈ (replaceStream kindOf st newTracks).fst.stopped) ∧
    ((newTracks.map kindOf).Nodup → t ∈ newTracks → i < st.senders.length →
      kindOf (st.senders.getD i 0) = kindOf t →
      (replaceStream kindOf st newTracks).fst.senders.getD i 0 = t) := by
  have hrs : replaceStream kindOf st newTracks
      = ((replaceCalls kindOf st.senders newTracks).foldl applyCall
          ⟨some newTracks, st.senders, old.foldl stopTrack st.stopped⟩,
         replaceCalls kindOf st.senders newTracks) := by
    simp [replaceStream, hvs]
  refine ⟨?_, ?_, ?_, ?_, ?_⟩
  · intro hu
    rw [hrs]
    exact foldl_applyCall_stopped_mono _ _ (mem_foldl_stopTrack_of_mem old st.stopped hu)
  · rw [hrs]
    exact foldl_applyCall_videoStream _ _
  · rw [hrs]
    exact foldl_applyCall_length _ _
  · intro ht hi hk
    have hget : st.senders[i]? = some (st.senders.getD i 0) := by
      rw [List.getD_eq_getElem?_getD, List.getElem?_eq_getElem hi]
      rfl
    have henum : (i, st.senders.getD i 0) ∈ st.senders.enum :=
      List.mk_mem_enum_iff_getElem?.mpr hget
    have hcall : (i, st.senders.getD i 0, t) ∈ replaceCalls kindOf st.senders newTracks :=
      mem_replaceCalls ht henum hk
    rw [hrs]
    exact ⟨hcall, foldl_applyCall_call_stopped _ _ _ hcall⟩
  · intro hnd ht hi hk
    have hget : st.senders[i]? = some (st.senders.getD i 0) := by
      rw [List.getD_eq_getElem?_getD, List.getElem?_eq_getElem hi]
      rfl
    have henum : (i, st.senders.getD i 0) ∈ st.senders.enum :=
      List.mk_mem_enum_iff_getElem?.mpr hget
    have hcall : (i, st.senders.getD i 0, t) ∈ replaceCalls kindOf st.senders newTracks :=
      mem_replaceCalls ht henum hk
    rw [hrs]
    dsimp only
    apply foldl_applyCall_set_last i t (replaceCalls kindOf st.senders newTracks)
      ⟨some newTracks, st.senders, old.foldl stopTrack st.stopped⟩ hi
    · intro c hc hci
      obtain ⟨henc, htc, hkc⟩ := replaceCalls_shape hc
      rw [hci] at henc
      have hcs : c.snd.fst = st.senders.getD i 0 := by
        have := List.mk_mem_enum_iff_getElem?.mp henc
        rw [hget] at this
        exact (Option.some.injEq _ _).mp this.symm
      have hkk : kindOf c.snd.snd = kindOf t := by
        rw [← hkc, hcs, hk]
      exact List.inj_on_of_nodup_map hnd htc ht hkk
    · exact Or.inr ⟨(i, st.senders.getD i 0, t), hcall, rfl⟩

/-- Witness for C5: two senders (an audio track `2` and a video track `5`),
a held stream with tracks `6` (audio) and `7` (video), replaced by a stream
with a fresh audio track `8` and video track `9`; kinds: even ids are audio,
odd ids are video. -/
theorem claim_c5_replaceStream_witness :
    (6 : Nat) ∈ (replaceStream (fun n => if n % 2 == 0 then Kind.audio else Kind.video)
        ⟨some [6, 7], [2, 5], []⟩ [8, 9]).fst.stopped ∧
    (replaceStream (fun n => if n % 2 == 0 then Kind.audio else Kind.video)
        ⟨some [6, 7], [2, 5], []⟩ [8, 9]).fst.videoStream = some [8, 9] ∧
    (replaceStream (fun n => if n % 2 == 0 then Kind.audio else Kind.video)
        ⟨some [6, 7], [2, 5], []⟩ [8, 9]).fst.senders.length
      = ([2, 5] : List Nat).length ∧
    ((0, 2, 8) ∈ (replaceStream (fun n => if n % 2 == 0 then Kind.audio else Kind.video)
        ⟨some [6, 7], [2, 5], []⟩ [8, 9]).snd ∧
      (2 : Nat) ∈ (replaceStream (fun n => if n % 2 == 0 then Kind.audio else Kind.video)
        ⟨some [6, 7], [2, 5], []⟩ [8, 9]).fst.stopped) ∧
    (replaceStream (fun n => if n % 2 == 0 then Kind.audio else Kind.video)
        ⟨some [6, 7], [2, 5], []⟩ [8, 9]).fst.senders.getD 0 0 = 8 := by
  have h := claim_c5_replaceStream
    (fun n => if n % 2 == 0 then Kind.audio else Kind.video)
    ⟨some [6, 7], [2, 5], []⟩ [6, 7] [8, 9] 0 8 6 rfl
  exact ⟨h.1 (by decide), h.2.1, h.2.2.1,
    h.2.2.2.1 (by decide) (by decide) (by decide),
    h.2.2.2.2 (by decide) (by decide) (by decide) (by decide)⟩

end KurentoUtils
